import Mathlib

/-!
Shallow embedding of the HTTP/1.1 server from `app/main.go` (final version:
`Server`, middleware chain, keep-alive connection loop).

Go strings are modelled as Lean `String`; `len` on a Go string is its byte
length, modelled by `String.utf8ByteSize`.  Go `map[string]string` is modelled
as an association list where an update replaces any previous binding.
Filesystem effects are modelled by an explicit `World` state that carries the
file store plus error-injection flags standing for the possible failure
outcomes of the `os` calls (`MkdirAll`, `Stat`, `WriteFile`, `Open`, `ReadAll`).
The gzip compressor (Go standard library `compress/gzip`, external to the
repository) is an abstract parameter `gz : String → String` of the
compression middleware.
-/

namespace HttpServer

/-- Byte length of a Go string: `len(s)` in Go counts bytes. -/
def goLen (s : String) : Nat := s.utf8ByteSize

/-- Go `strings.HasPrefix`, computed on the character lists (equivalent to
the byte-level check, since UTF-8 is prefix-synchronized). -/
def strStarts (s pre : String) : Bool :=
  pre.data.isPrefixOf s.data

/-- Go `strings.TrimPrefix(s, pre)`: drops `pre` when it is a prefix of `s`,
otherwise returns `s` unchanged. -/
def stripPre (s pre : String) : String :=
  if strStarts s pre then String.mk (s.data.drop pre.data.length) else s

/-- Splitting a character list at every occurrence of `c`
(Go `strings.Split` with a one-character separator). -/
def splitOnChar (c : Char) : List Char → List (List Char)
  | [] => [[]]
  | x :: xs =>
    let r := splitOnChar c xs
    if x = c then [] :: r
    else
      match r with
      | h :: t => (x :: h) :: t
      | [] => [[x]]

/-- Go `strings.ToLower`, character by character (ASCII case mapping). -/
def strToLower (s : String) : String :=
  String.mk (s.data.map Char.toLower)

/-- Go `strings.TrimSpace`: leading and trailing whitespace removed. -/
def strTrim (s : String) : String :=
  String.mk
    (((s.data.dropWhile Char.isWhitespace).reverse.dropWhile
      Char.isWhitespace).reverse)

/-- Header maps: Go `map[string]string`, as an association list where
`hSet` replaces any previous binding for the key. -/
abbrev Headers := List (String × String)

/-- Go map update `h[k] = v`. -/
def hSet (h : Headers) (k v : String) : Headers :=
  (k, v) :: h.filter (fun p => p.1 != k)

/-- Go map lookup with presence flag: `v, ok := h[k]`. -/
def hFind? (h : Headers) (k : String) : Option String :=
  (h.find? (fun p => p.1 == k)).map (fun p => p.2)

/-- Go map lookup without presence flag: missing keys give the zero value "". -/
def hGet (h : Headers) (k : String) : String :=
  (hFind? h k).getD ""

/-- Removing a key from a header map (used to compare a request with and
without a given header). -/
def hRemove (h : Headers) (k : String) : Headers :=
  h.filter (fun p => p.1 != k)

/-- Substring scan: does `pat` occur as a contiguous run inside the list? -/
def hasInfixRun (pat : List Char) : List Char → Bool
  | [] => pat.isEmpty
  | c :: rest => pat.isPrefixOf (c :: rest) || hasInfixRun pat rest

/-- Go `strings.Contains(s, "..")`, the traversal-marker check of
`handleFiles`. -/
def containsDotDot (s : String) : Bool :=
  hasInfixRun ['.', '.'] s.data

/-- One pass of Go `path/filepath.Clean`'s lexical algorithm over the
slash-separated segments of the path: empty and "." segments are dropped,
".." pops the previous segment when there is one to pop, is dropped at the
root of a rooted path, and is kept at the front of a relative path.
`acc` is the processed-segment stack, most recent first. -/
def cleanSegs (rooted : Bool) : List String → List String → List String
  | acc, [] => acc.reverse
  | acc, seg :: rest =>
    if seg = "" ∨ seg = "." then
      cleanSegs rooted acc rest
    else if seg = ".." then
      match acc with
      | top :: accTail =>
        if top = ".." then cleanSegs rooted (".." :: acc) rest
        else cleanSegs rooted accTail rest
      | [] =>
        if rooted then cleanSegs rooted [] rest
        else cleanSegs rooted [".."] rest
    else
      cleanSegs rooted (seg :: acc) rest

/-- Joining path segments with "/" (`strings.Join(segs, "/")`). -/
def joinSegs : List String → String
  | [] => ""
  | [a] => a
  | a :: rest => a ++ "/" ++ joinSegs rest

/-- Go `path/filepath.Clean` (Unix rules): shortest lexically equivalent
path; the empty path cleans to ".". -/
def cleanPath (p : String) : String :=
  if p = "" then "."
  else
    let rooted := strStarts p "/"
    let segs := cleanSegs rooted [] ((splitOnChar '/' p.data).map String.mk)
    let joined := joinSegs segs
    if rooted then
      if joined = "" then "/" else "/" ++ joined
    else
      if joined = "" then "." else joined

/-- Go `path/filepath.Join(a, b)` (Unix rules): empty elements are skipped,
the rest are joined with "/" and cleaned; joining two empty strings gives "". -/
def goJoin (a b : String) : String :=
  if a = "" ∧ b = "" then ""
  else if a = "" then cleanPath b
  else if b = "" then cleanPath a
  else cleanPath (a ++ "/" ++ b)

/-- Go `path/filepath.Dir`: everything up to and including the final slash,
cleaned; a path with no slash has directory ".". -/
def goDir (p : String) : String :=
  cleanPath (String.mk ((p.data.reverse.dropWhile (fun c => c ≠ '/')).reverse))

/-- Go `path/filepath.Base`: last element of the path after removing trailing
slashes; "" gives ".", an all-slash path gives "/". -/
def goBase (p : String) : String :=
  if p = "" then "."
  else
    let rev := p.data.reverse.dropWhile (fun c => c = '/')
    if rev.isEmpty then "/"
    else String.mk ((rev.takeWhile (fun c => c ≠ '/')).reverse)

/-- Status-line constants of `app/main.go`. -/
def StatusOK : String := "HTTP/1.1 200 OK"

def StatusCreated : String := "HTTP/1.1 201 Created"

def StatusBadRequest : String := "HTTP/1.1 400 Bad Request"

def StatusNotFound : String := "HTTP/1.1 404 Not Found"

def StatusMethodNotAllowed : String := "HTTP/1.1 405 Not Allowed"

def StatusConflict : String := "HTTP/1.1 409 Conflict"

def StatusUpgradeRequired : String := "HTTP/1.1 426 Upgrade Required"

def StatusInternalServerError : String := "HTTP/1.1 500 Internal Server Error"

/-- A parsed HTTP request (`Request` struct).  `body` is `none` when the Go
`Body` slice is nil, i.e. when no positive `content-length` was parsed. -/
structure Request where
  method : String
  path : String
  httpVersion : String
  headers : Headers
  body : Option String
  deriving Repr, DecidableEq

/-- An HTTP response (`Response` struct); `body` is a Go string (byte
sequence). -/
structure Response where
  statusLine : String
  headers : Headers
  body : String
  deriving Repr, DecidableEq

/-- A response with the given status line, fresh empty header map and empty
body (the common `&Response{StatusLine: ..., Headers: make(...)}` shape). -/
def mkResp (status : String) : Response :=
  { statusLine := status, headers := [], body := "" }

/-- The file store: file path ↦ content, plus the set of directories. -/
structure FS where
  files : List (String × String)
  dirs : List String
  deriving Repr, DecidableEq

/-- Lookup of a file's content by path. -/
def FS.findFile (fs : FS) (p : String) : Option String :=
  (fs.files.find? (fun e => e.1 == p)).map (fun e => e.2)

/-- The filesystem world: the store plus error-injection flags, one per
possible failure outcome of the `os` calls made by the file handlers
(`MkdirAll`, `Stat`, `WriteFile`, `Open`, `ReadAll`). -/
structure World where
  fs : FS
  mkdirFails : Bool
  statFails : Bool
  writeFails : Bool
  openFails : Bool
  readFails : Bool
  deriving Repr, DecidableEq

/-- World with an empty file store and no injected errors. -/
def emptyWorld : World :=
  { fs := { files := [], dirs := [] },
    mkdirFails := false, statFails := false, writeFails := false,
    openFails := false, readFails := false }

/-- Outcome of `os.Stat`: a file, a directory, a "not exists" error, or any
other error. -/
inductive StatResult where
  | file (content : String)
  | dir
  | notExists
  | error
  deriving Repr, DecidableEq

/-- Did `os.Stat(p)` succeed (the path exists as a file or directory). -/
def StatResult.isFound : StatResult → Bool
  | .file _ => true
  | .dir => true
  | _ => false

/-- Model of `os.Stat` on the modelled world. -/
def goStat (p : String) (w : World) : StatResult :=
  if w.statFails then .error
  else
    match w.fs.findFile p with
    | some c => .file c
    | none => if w.fs.dirs.contains p then .dir else .notExists

/-- Model of `os.MkdirAll(p, 0755)`: `none` on error, otherwise the world with the
directory recorded. -/
def goMkdirAll (p : String) (w : World) : Option World :=
  if w.mkdirFails then none
  else some { w with fs := { w.fs with dirs := p :: w.fs.dirs } }

/-- Model of `os.WriteFile(p, c, 0644)`: `none` on error, otherwise the world with the
file recorded. -/
def goWriteFile (p c : String) (w : World) : Option World :=
  if w.writeFails then none
  else some { w with fs := { w.fs with files := (p, c) :: w.fs.files } }

/-- A handler: `Request → Response`, with the filesystem world threaded
explicitly. -/
abbrev HandlerM := Request → World → Response × World

/-- Handler `handleUserAgent`: echoes the `user-agent` request header. -/
def handleUserAgent (req : Request) : Response :=
  { statusLine := StatusOK, headers := [], body := hGet req.headers "user-agent" }

/-- Handler `handleEcho`: body is the request path with the `/echo/` prefix removed. -/
def handleEcho (req : Request) : Response :=
  { statusLine := StatusOK, headers := [], body := stripPre req.path "/echo/" }

/-- Handler `handleFileUpload`: POST to a `/files/` path.  400 without a body, 500 on
`MkdirAll` failure, 409 when the target exists, 500 on any other `Stat`
error, 500 on `WriteFile` failure, otherwise 201 with empty body. -/
def handleFileUpload (req : Request) (fullPath : String) (w : World) :
    Response × World :=
  match req.body with
  | none => (mkResp StatusBadRequest, w)
  | some b =>
    match goMkdirAll (goDir fullPath) w with
    | none => (mkResp StatusInternalServerError, w)
    | some w₁ =>
      match goStat fullPath w₁ with
      | .file _ => (mkResp StatusConflict, w₁)
      | .dir => (mkResp StatusConflict, w₁)
      | .error => (mkResp StatusInternalServerError, w₁)
      | .notExists =>
        match goWriteFile fullPath b w₁ with
        | none => (mkResp StatusInternalServerError, w₁)
        | some w₂ => (mkResp StatusCreated, w₂)

/-- Handler `handleFileDownload`: GET from a `/files/` path.  404 when `Stat` errors
or the path is a directory, 500 on open/read failure, otherwise 200 with the
file content and the octet-stream headers. -/
def handleFileDownload (fullPath : String) (w : World) : Response × World :=
  match goStat fullPath w with
  | .error => (mkResp StatusNotFound, w)
  | .notExists => (mkResp StatusNotFound, w)
  | .dir => (mkResp StatusNotFound, w)
  | .file content =>
    if w.openFails then (mkResp StatusInternalServerError, w)
    else if w.readFails then (mkResp StatusInternalServerError, w)
    else
      ({ statusLine := StatusOK,
         headers := hSet (hSet [] "Content-Type" "application/octet-stream")
           "Content-Disposition" ("attachment; filename=" ++ goBase fullPath),
         body := content }, w)

/-- Handler `handleFiles`: 400 when no root directory is configured, then the
`/files/` prefix is stripped, the remainder cleaned, empty or
traversal-marked paths rejected with 400, and the result joined under the
root and dispatched by method. -/
def handleFiles (req : Request) (directory : String) (w : World) :
    Response × World :=
  if directory = "" then (mkResp StatusBadRequest, w)
  else if cleanPath (stripPre req.path "/files/") = "" then
    (mkResp StatusBadRequest, w)
  else if containsDotDot (cleanPath (stripPre req.path "/files/")) then
    (mkResp StatusBadRequest, w)
  else if req.method = "POST" then
    handleFileUpload req
      (goJoin directory (cleanPath (stripPre req.path "/files/"))) w
  else if req.method = "GET" then
    handleFileDownload
      (goJoin directory (cleanPath (stripPre req.path "/files/"))) w
  else (mkResp StatusMethodNotAllowed, w)

/-- Middleware `httpVersionMiddleware`: 426 with `Upgrade: HTTP/1.1` unless the version
is exactly "HTTP/1.1". -/
def httpVersionMiddleware (next : HandlerM) : HandlerM := fun req w =>
  if req.httpVersion ≠ "HTTP/1.1" then
    ({ statusLine := StatusUpgradeRequired,
       headers := [("Upgrade", "HTTP/1.1")], body := "" }, w)
  else next req w

/-- Middleware `methodValidationMiddleware`: 405 unless the method is GET or POST. -/
def methodValidationMiddleware (next : HandlerM) : HandlerM := fun req w =>
  if req.method ≠ "GET" ∧ req.method ≠ "POST" then
    (mkResp StatusMethodNotAllowed, w)
  else next req w

/-- Does some comma-separated token of the `accept-encoding` value, lowered
then trimmed, equal "gzip"? -/
def hasGzipToken (v : String) : Bool :=
  ((splitOnChar ',' v.data).map String.mk).any
    (fun t => strTrim (strToLower t) == "gzip")

/-- Middleware `compressionMiddleware`, parameterized by the gzip compressor `gz`
(Go library `compress/gzip`, external to the repository): when the request
carries an `accept-encoding` header with a gzip token and the inner response
body is non-empty, the body is replaced by its compression and
`Content-Encoding` / `Content-Length` are set. -/
def compressionMiddleware (gz : String → String) (next : HandlerM) :
    HandlerM := fun req w =>
  let rw := next req w
  let response := rw.1
  match hFind? req.headers "accept-encoding" with
  | none => rw
  | some acceptEncoding =>
    if response.body ≠ "" ∧ hasGzipToken acceptEncoding = true then
      let compressedBody := gz response.body
      ({ response with
         body := compressedBody,
         headers := hSet (hSet response.headers "Content-Encoding" "gzip")
           "Content-Length" (toString (goLen compressedBody)) }, rw.2)
    else rw

/-- Middleware `routingMiddleware`: exact match on `GET /` and `GET /user-agent`,
prefix match on `GET /echo/` and `/files/` (any method), else delegate. -/
def routingMiddleware (directory : String) (next : HandlerM) : HandlerM :=
  fun req w =>
  if req.method = "GET" ∧ req.path = "/" then (mkResp StatusOK, w)
  else if req.method = "GET" ∧ req.path = "/user-agent" then
    (handleUserAgent req, w)
  else if req.method = "GET" ∧ strStarts req.path "/echo/" = true then
    (handleEcho req, w)
  else if strStarts req.path "/files/" = true then handleFiles req directory w
  else next req w

/-- The terminal 404 handler wrapped by the chain. -/
def notFoundHandler : HandlerM := fun _ w => (mkResp StatusNotFound, w)

/-- Chain builder `createMiddlewareChain`: version check, then method check, then
compression (which wraps the routing result), then routing, around the 404
handler. -/
def createMiddlewareChain (gz : String → String) (directory : String) :
    HandlerM :=
  httpVersionMiddleware (methodValidationMiddleware
    (compressionMiddleware gz (routingMiddleware directory notFoundHandler)))

/-- The header fixup `sendResponse` performs before serializing: for a
non-empty body, default `Content-Type` to text/plain and set
`Content-Length` to the body's byte length. -/
def sendResponsePrepare (r : Response) : Response :=
  if r.body = "" then r
  else
    let h := if hGet r.headers "Content-Type" = "" then
        hSet r.headers "Content-Type" "text/plain"
      else r.headers
    { r with headers := hSet h "Content-Length" (toString (goLen r.body)) }

/-- The full per-request pipeline: middleware chain followed by
`sendResponse`'s header fixup; the result is the response as serialized. -/
def respond (gz : String → String) (directory : String) (req : Request)
    (w : World) : Response × World :=
  let rw := createMiddlewareChain gz directory req w
  (sendResponsePrepare rw.1, rw.2)

/-- Did the request ask to close the connection?  Go:
`connHeader, ok := Headers["connection"]; ok && ToLower(connHeader)=="close"`. -/
def wantsClose (req : Request) : Bool :=
  match hFind? req.headers "connection" with
  | some v => strToLower v == "close"
  | none => false

/-- Adding `Connection: close` to a response, as the connection loop does. -/
def addCloseHeader (r : Response) : Response :=
  { r with headers := hSet r.headers "Connection" "close" }

/-- Loop `handleConnection`: keep-alive loop over the successfully parsed
requests arriving on one connection: each request is dispatched through the
chain, `Connection: close` is added when the request asked for it, the
response is written (with `sendResponse`'s header fixup), and the loop stops
after a close request.  Returns the responses as written, in order. -/
def handleConnection (gz : String → String) (directory : String) :
    List Request → World → List Response × World
  | [], w => ([], w)
  | req :: rest, w =>
    let close := wantsClose req
    let rw := createMiddlewareChain gz directory req w
    let resp := if close then addCloseHeader rw.1 else rw.1
    let written := sendResponsePrepare resp
    if close then ([written], rw.2)
    else
      let rec' := handleConnection gz directory rest rw.2
      (written :: rec'.1, rec'.2)

def uploadTarget (directory path : String) : String :=
  goJoin directory (cleanPath (stripPre path "/files/"))

/-- A world after `MkdirAll` recorded a directory. -/
def withDir (w : World) (d : String) : World :=
  { w with fs := { w.fs with dirs := d :: w.fs.dirs } }

/-- A world after `WriteFile` recorded a file. -/
def withFile (w : World) (p c : String) : World :=
  { w with fs := { w.fs with files := (p, c) :: w.fs.files } }

def dropAcceptEncoding (req : Request) : Request :=
  { req with headers := hRemove req.headers "accept-encoding" }

/-! ### Header-map lemmas -/

theorem find?_key_filter_ne (h : Headers) {k k' : String} (hne : k' ≠ k) :
    (h.filter (fun p => p.1 != k)).find? (fun p => p.1 == k') =
      h.find? (fun p => p.1 == k') := by
  rw [List.find?_filter]
  congr 1
  funext a
  by_cases hk' : a.1 = k'
  · have hk : a.1 ≠ k := by rw [hk']; exact hne
    simp [hk', hk]
    exact hne
  · simp [hk']

theorem find?_key_filter_self (h : Headers) (k : String) :
    (h.filter (fun p => p.1 != k)).find? (fun p => p.1 == k) = none := by
  rw [List.find?_filter]
  have hp : (fun (a : String × String) =>
      decide ((a.1 != k) = true ∧ (a.1 == k) = true)) =
      fun (_ : String × String) => false := by
    funext a
    by_cases hk : a.1 = k <;> simp [hk]
  rw [hp]
  simp [List.find?_eq_none]

theorem hFind?_hSet_self (h : Headers) (k v : String) :
    hFind? (hSet h k v) k = some v := by
  simp [hFind?, hSet, List.find?]

theorem hFind?_hSet_ne (h : Headers) {k k' : String} (hne : k' ≠ k)
    (v : String) : hFind? (hSet h k v) k' = hFind? h k' := by
  have hk : (k == k') = false := by
    simp
    exact fun he => hne he.symm
  simp [hFind?, hSet, List.find?, hk, find?_key_filter_ne _ hne]

theorem hFind?_hRemove_self (h : Headers) (k : String) :
    hFind? (hRemove h k) k = none := by
  simp [hFind?, hRemove, find?_key_filter_self]

theorem hFind?_hRemove_ne (h : Headers) {k k' : String} (hne : k' ≠ k) :
    hFind? (hRemove h k) k' = hFind? h k' := by
  simp [hFind?, hRemove, find?_key_filter_ne _ hne]

theorem strLen_pos {s : String} (h : s ≠ "") : 0 < s.length := by
  cases s with
  | mk data =>
    cases data with
    | nil => exact absurd rfl h
    | cons c cs => simp [String.length]

theorem cleanPath_length_pos (s : String) : 0 < (cleanPath s).length := by
  unfold cleanPath
  by_cases h : s = ""
  · simp only [h, if_true]
    decide
  · simp only [h, if_false]
    by_cases hr : strStarts s "/" = true
    · simp only [hr, if_true]
      by_cases hj : joinSegs (cleanSegs true []
          ((splitOnChar '/' s.data).map String.mk)) = ""
      · simp only [hj, if_true]
        decide
      · simp only [hj, if_false]
        rw [String.length_append]
        have := strLen_pos hj
        omega
    · simp only [hr, if_false]
      by_cases hj : joinSegs (cleanSegs false []
          ((splitOnChar '/' s.data).map String.mk)) = ""
      · simp only [hj, if_true]
        decide
      · simp only [hj, if_false]
        exact strLen_pos hj

theorem cleanPath_ne_empty (s : String) : cleanPath s ≠ "" := by
  intro h
  have := cleanPath_length_pos s
  rw [h] at this
  exact absurd this (by decide)

/-- The upload target path computed by `handleFiles`. -/

theorem sendResponsePrepare_body (r : Response) :
    (sendResponsePrepare r).body = r.body := by
  unfold sendResponsePrepare
  split <;> rfl

theorem hFind?_sendResponsePrepare (r : Response) {k : String}
    (h1 : k ≠ "Content-Length") (h2 : k ≠ "Content-Type") :
    hFind? (sendResponsePrepare r).headers k = hFind? r.headers k := by
  unfold sendResponsePrepare
  split
  · rfl
  · rw [hFind?_hSet_ne _ h1]
    split
    · rw [hFind?_hSet_ne _ h2]
    · rfl

theorem upload_no_content_length (req : Request) (fullPath : String)
    (w : World) :
    hFind? ((handleFileUpload req fullPath w).1).headers "Content-Length" =
      none := by
  unfold handleFileUpload
  repeat' split
  all_goals rfl

theorem download_no_content_length (fullPath : String) (w : World) :
    hFind? ((handleFileDownload fullPath w).1).headers "Content-Length" =
      none := by
  unfold handleFileDownload
  repeat' split
  all_goals rfl

theorem files_no_content_length (req : Request) (directory : String)
    (w : World) :
    hFind? ((handleFiles req directory w).1).headers "Content-Length" =
      none := by
  unfold handleFiles
  repeat' split
  all_goals
    first
    | rfl
    | exact upload_no_content_length _ _ _
    | exact download_no_content_length _ _

theorem routing_no_content_length (directory : String) (req : Request)
    (w : World) :
    hFind? ((routingMiddleware directory notFoundHandler req w).1).headers
      "Content-Length" = none := by
  unfold routingMiddleware notFoundHandler
  repeat' split
  all_goals
    first
    | rfl
    | exact files_no_content_length _ _ _

/-- A request with its `accept-encoding` header removed. -/

theorem handleFiles_headers_irrel (req : Request) (h' : Headers)
    (directory : String) (w : World) :
    handleFiles { req with headers := h' } directory w =
      handleFiles req directory w := rfl

theorem routing_drop_ae (directory : String) (req : Request) (w : World) :
    routingMiddleware directory notFoundHandler (dropAcceptEncoding req) w =
      routingMiddleware directory notFoundHandler req w := by
  have hua : hFind? (hRemove req.headers "accept-encoding") "user-agent" =
      hFind? req.headers "user-agent" := hFind?_hRemove_ne _ (by decide)
  unfold routingMiddleware
  have hm : (dropAcceptEncoding req).method = req.method := rfl
  have hp : (dropAcceptEncoding req).path = req.path := rfl
  rw [hm, hp]
  by_cases h1 : req.method = "GET" ∧ req.path = "/"
  · simp [h1]
  · simp only [h1, if_false]
    by_cases h2 : req.method = "GET" ∧ req.path = "/user-agent"
    · simp [h2, handleUserAgent, dropAcceptEncoding, hGet, hua]
    · simp only [h2, if_false]
      by_cases h3 : req.method = "GET" ∧ strStarts req.path "/echo/" = true
      · simp [h3, handleEcho, dropAcceptEncoding, stripPre]
      · simp only [h3, if_false]
        by_cases h4 : strStarts req.path "/files/" = true
        · simp only [h4, if_true]
          exact handleFiles_headers_irrel req _ directory w
        · simp [h4, notFoundHandler]

theorem chain_content_length (gz : String → String) (directory : String)
    (req : Request) (w : World) (hgz : ∀ s, s ≠ "" → gz s ≠ "") :
    hFind? ((createMiddlewareChain gz directory req w).1).headers
      "Content-Length" = none ∨
    ((createMiddlewareChain gz directory req w).1.body ≠ "" ∧
      hFind? ((createMiddlewareChain gz directory req w).1).headers
        "Content-Length" =
      some (toString (goLen
        (createMiddlewareChain gz directory req w).1.body))) := by
  unfold createMiddlewareChain httpVersionMiddleware methodValidationMiddleware
    compressionMiddleware
  by_cases hv : req.httpVersion ≠ "HTTP/1.1"
  · left
    simp [hv]
    rfl
  · simp only [hv, if_false]
    by_cases hm : req.method ≠ "GET" ∧ req.method ≠ "POST"
    · left
      simp [hm]
      rfl
    · simp only [hm, if_false]
      cases hae : hFind? req.headers "accept-encoding" with
      | none =>
        left
        simp only [hae]
        exact routing_no_content_length directory req w
      | some ae =>
        simp only [hae]
        by_cases hcond :
            (routingMiddleware directory notFoundHandler req w).1.body ≠ "" ∧
            hasGzipToken ae = true
        · right
          rw [if_pos hcond]
          refine ⟨hgz _ hcond.1, ?_⟩
          exact hFind?_hSet_self _ _ _
        · left
          rw [if_neg hcond]
          exact routing_no_content_length directory req w

theorem prepare_content_length (r : Response)
    (hcl : hFind? r.headers "Content-Length" = none ∨
      (r.body ≠ "" ∧ hFind? r.headers "Content-Length" =
        some (toString (goLen r.body)))) :
    ((sendResponsePrepare r).body ≠ "" →
      hFind? (sendResponsePrepare r).headers "Content-Length" =
        some (toString (goLen (sendResponsePrepare r).body))) ∧
    ((sendResponsePrepare r).body = "" →
      hFind? (sendResponsePrepare r).headers "Content-Length" = none) := by
  unfold sendResponsePrepare
  by_cases hb : r.body = ""
  · rw [if_pos hb]
    constructor
    · intro hne
      exact absurd hb hne
    · intro _
      rcases hcl with h | ⟨hne, _⟩
      · exact h
      · exact absurd hb hne
  · rw [if_neg hb]
    constructor
    · intro _
      exact hFind?_hSet_self _ _ _
    · intro he
      exact absurd he hb

/-! ### C7: version check short-circuits everything downstream -/

/-- C7: for every request whose version differs from "HTTP/1.1" the
middleware chain returns 426 Upgrade Required with header
`Upgrade: HTTP/1.1` and an untouched world, regardless of method and path;
moreover the version middleware returns that same response around an
arbitrary downstream handler, so no downstream stage runs. -/
theorem version_check_short_circuits (gz : String → String)
    (directory : String) (req : Request) (w : World)
    (h : req.httpVersion ≠ "HTTP/1.1") :
    createMiddlewareChain gz directory req w =
      ({ statusLine := StatusUpgradeRequired,
         headers := [("Upgrade", "HTTP/1.1")], body := "" }, w) ∧
    ∀ next : HandlerM, httpVersionMiddleware next req w =
      ({ statusLine := StatusUpgradeRequired,
         headers := [("Upgrade", "HTTP/1.1")], body := "" }, w) := by
  refine ⟨?_, fun next => ?_⟩ <;>
    simp [createMiddlewareChain, httpVersionMiddleware, h]

/-- Witness for C7: a concrete HTTP/1.0 request. -/
theorem version_check_short_circuits_witness :
    createMiddlewareChain (fun s => s) "/data"
        ⟨"POST", "/echo/x", "HTTP/1.0", [], none⟩ emptyWorld =
      ({ statusLine := StatusUpgradeRequired,
         headers := [("Upgrade", "HTTP/1.1")], body := "" }, emptyWorld) ∧
    ∀ next : HandlerM, httpVersionMiddleware next
        ⟨"POST", "/echo/x", "HTTP/1.0", [], none⟩ emptyWorld =
      ({ statusLine := StatusUpgradeRequired,
         headers := [("Upgrade", "HTTP/1.1")], body := "" }, emptyWorld) :=
  version_check_short_circuits (fun s => s) "/data"
    ⟨"POST", "/echo/x", "HTTP/1.0", [], none⟩ emptyWorld (by decide)

/-! ### C2: traversal-marked /files/ paths are rejected without touching
the filesystem -/

/-- C2: for every `/files/` request (root configured) whose path, stripped
of the `/files/` prefix and cleaned, still contains the ".." traversal
marker, `handleFiles` answers 400 Bad Request and leaves the world — and in
particular the filesystem — completely untouched. -/
theorem files_traversal_rejected (req : Request) (directory : String)
    (w : World) (hdir : directory ≠ "")
    (_hpre : strStarts req.path "/files/" = true)
    (hdot : containsDotDot (cleanPath (stripPre req.path "/files/")) = true) :
    handleFiles req directory w = (mkResp StatusBadRequest, w) := by
  have hne : cleanPath (stripPre req.path "/files/") ≠ "" := by
    intro he
    rw [he] at hdot
    exact absurd hdot (by decide)
  simp [handleFiles, hdir, hne, hdot]

/-- Witness for C2: `GET /files/../etc/passwd` is rejected with 400 and the
world is unchanged. -/
theorem files_traversal_rejected_witness :
    handleFiles ⟨"GET", "/files/../etc/passwd", "HTTP/1.1", [], none⟩
        "/data" emptyWorld = (mkResp StatusBadRequest, emptyWorld) :=
  files_traversal_rejected
    ⟨"GET", "/files/../etc/passwd", "HTTP/1.1", [], none⟩ "/data" emptyWorld
    (by decide) (by decide) (by decide)

/-! ### C5: "normalizes to an empty path" never happens; GET /files/ gives
404, not 400 -/

/-- C5 counterexample: the request `GET /files/` — the one whose remainder
after stripping the `/files/` prefix is empty — is answered with 404 Not
Found, not with the 400 the claim demands: `filepath.Clean` maps the empty
remainder to ".", so the empty-path rejection branch does not fire and the
download handler answers 404 for the nonexistent (or directory) root. -/
theorem files_empty_remainder_not_400 :
    handleFiles ⟨"GET", "/files/", "HTTP/1.1", [], none⟩ "/data" emptyWorld =
      (mkResp StatusNotFound, emptyWorld) ∧
    mkResp StatusNotFound ≠ mkResp StatusBadRequest := by
  constructor
  · decide
  · decide

/-- C5 amended: normalization never yields an empty path — `cleanPath`
always returns a non-empty string (the empty remainder cleans to ".") — so
the 400-on-empty branch of `handleFiles` is unreachable. -/
theorem cleanPath_never_empty : ∀ s : String, 0 < (cleanPath s).length :=
  fun s => cleanPath_length_pos s

/-- C3: for every POST to an accepted `/files/` path with the root
configured: no body gives 400; a `MkdirAll` failure gives 500; a `Stat`
failure other than not-exists gives 500; an existing target gives 409 and
the file store is untouched (no overwrite); a `WriteFile` failure gives
500; a successful write gives 201 with empty body and records exactly the
uploaded file; consequently two sequential POSTs of the same fresh path
return 201 then 409. -/
theorem files_upload_semantics (req : Request) (directory : String) (w : World)
    (hm : req.method = "POST") (hdir : directory ≠ "")
    (hdot : containsDotDot (cleanPath (stripPre req.path "/files/")) = false) :
    (req.body = none →
      handleFiles req directory w = (mkResp StatusBadRequest, w)) ∧
    (∀ b, req.body = some b → w.mkdirFails = true →
      handleFiles req directory w = (mkResp StatusInternalServerError, w)) ∧
    (∀ b, req.body = some b → w.mkdirFails = false → w.statFails = true →
      handleFiles req directory w = (mkResp StatusInternalServerError,
        withDir w (goDir (uploadTarget directory req.path)))) ∧
    (∀ b, req.body = some b → w.mkdirFails = false →
      (goStat (uploadTarget directory req.path)
        (withDir w (goDir (uploadTarget directory req.path)))).isFound = true →
      handleFiles req directory w = (mkResp StatusConflict,
        withDir w (goDir (uploadTarget directory req.path))) ∧
      (withDir w (goDir (uploadTarget directory req.path))).fs.files =
        w.fs.files) ∧
    (∀ b, req.body = some b → w.mkdirFails = false →
      goStat (uploadTarget directory req.path)
        (withDir w (goDir (uploadTarget directory req.path))) = .notExists →
      w.writeFails = true →
      handleFiles req directory w = (mkResp StatusInternalServerError,
        withDir w (goDir (uploadTarget directory req.path)))) ∧
    (∀ b, req.body = some b → w.mkdirFails = false →
      goStat (uploadTarget directory req.path)
        (withDir w (goDir (uploadTarget directory req.path))) = .notExists →
      w.writeFails = false →
      handleFiles req directory w = (mkResp StatusCreated,
        withFile (withDir w (goDir (uploadTarget directory req.path)))
          (uploadTarget directory req.path) b)) ∧
    (∀ b, req.body = some b → w.mkdirFails = false → w.writeFails = false →
      goStat (uploadTarget directory req.path)
        (withDir w (goDir (uploadTarget directory req.path))) = .notExists →
      (handleFiles req directory w).1 = mkResp StatusCreated ∧
      (handleFiles req directory (handleFiles req directory w).2).1 =
        mkResp StatusConflict) := by
  have hfp := cleanPath_ne_empty (stripPre req.path "/files/")
  have hred : ∀ w' : World, handleFiles req directory w' =
      handleFileUpload req (uploadTarget directory req.path) w' := by
    intro w'
    simp [handleFiles, hdir, hfp, hdot, hm, uploadTarget]
  refine ⟨?_, ?_, ?_, ?_, ?_, ?_, ?_⟩
  · intro hb
    rw [hred]
    simp [handleFileUpload, hb]
  · intro b hb hmk
    rw [hred]
    simp [handleFileUpload, hb, goMkdirAll, hmk]
  · intro b hb hmk hst
    rw [hred]
    simp [handleFileUpload, hb, goMkdirAll, hmk, goStat, hst, withDir]
  · intro b hb hmk hfound
    refine ⟨?_, rfl⟩
    rw [hred]
    cases hgs : goStat (uploadTarget directory req.path)
        (withDir w (goDir (uploadTarget directory req.path))) with
    | file c =>
      simp [handleFileUpload, hb, goMkdirAll, hmk, withDir] at hgs ⊢
      simp [hgs]
    | dir =>
      simp [handleFileUpload, hb, goMkdirAll, hmk, withDir] at hgs ⊢
      simp [hgs]
    | notExists =>
      rw [hgs] at hfound
      exact absurd hfound (by decide)
    | error =>
      rw [hgs] at hfound
      exact absurd hfound (by decide)
  · intro b hb hmk hne hwf
    rw [hred]
    simp only [handleFileUpload, hb, goMkdirAll, hmk, if_false, Bool.false_eq_true]
    simp [withDir, hmk, hwf] at hne
    simp [hne, goWriteFile, hwf, withDir, hmk]
  · intro b hb hmk hne hwf
    rw [hred]
    simp only [handleFileUpload, hb, goMkdirAll, hmk, if_false, Bool.false_eq_true]
    simp [withDir, hmk, hwf] at hne
    simp [hne, goWriteFile, hwf, withDir, withFile, hmk]
  · intro b hb hmk hwf hne
    have hsf : w.statFails = false := by
      cases hsf : w.statFails with
      | false => rfl
      | true =>
        rw [show goStat (uploadTarget directory req.path)
            (withDir w (goDir (uploadTarget directory req.path))) = .error from by
          simp [goStat, withDir, hsf]] at hne
        exact absurd hne (by simp)
    have h1 : handleFiles req directory w = (mkResp StatusCreated,
        withFile (withDir w (goDir (uploadTarget directory req.path)))
          (uploadTarget directory req.path) b) := by
      rw [hred]
      simp only [handleFileUpload, hb, goMkdirAll, hmk, if_false,
        Bool.false_eq_true]
      simp [withDir, hmk, hwf, hsf] at hne
      simp [hne, goWriteFile, hwf, withDir, withFile, hmk, hsf]
    refine ⟨by rw [h1], ?_⟩
    rw [h1, hred]
    simp [handleFileUpload, hb, goMkdirAll, hmk, withFile, withDir, goStat,
      hsf, FS.findFile, List.find?]

/-- Witness for C3: `POST /files/a.txt` with body "hello" on an empty
world returns 201, and the same POST again returns 409. -/
theorem files_upload_semantics_witness :
    (handleFiles ⟨"POST", "/files/a.txt", "HTTP/1.1",
        [("content-length", "5")], some "hello"⟩ "/data" emptyWorld).1 =
      mkResp StatusCreated ∧
    (handleFiles ⟨"POST", "/files/a.txt", "HTTP/1.1",
        [("content-length", "5")], some "hello"⟩ "/data"
      (handleFiles ⟨"POST", "/files/a.txt", "HTTP/1.1",
        [("content-length", "5")], some "hello"⟩ "/data" emptyWorld).2).1 =
      mkResp StatusConflict :=
  (files_upload_semantics
    ⟨"POST", "/files/a.txt", "HTTP/1.1", [("content-length", "5")],
      some "hello"⟩ "/data" emptyWorld rfl (by decide)
    (by decide)).2.2.2.2.2.2 "hello" rfl rfl rfl (by decide)

/-- C6: the connection loop answers a request whose `connection` header
compares case-insensitively equal to "close" with exactly one more response,
carrying `Connection: close`, and ignores everything after it on that
connection; any other request is answered and the loop goes on to the next
request on the same connection, so two close-less requests get two
responses. -/
theorem connection_close_semantics (gz : String → String) (directory : String)
    (req req₂ : Request) (rest : List Request) (w : World) :
    (wantsClose req = true →
      handleConnection gz directory (req :: rest) w =
        ([sendResponsePrepare (addCloseHeader
            (createMiddlewareChain gz directory req w).1)],
          (createMiddlewareChain gz directory req w).2) ∧
      hFind? (sendResponsePrepare (addCloseHeader
          (createMiddlewareChain gz directory req w).1)).headers "Connection" =
        some "close") ∧
    (wantsClose req = false →
      handleConnection gz directory (req :: rest) w =
        (sendResponsePrepare (createMiddlewareChain gz directory req w).1 ::
            (handleConnection gz directory rest
              (createMiddlewareChain gz directory req w).2).1,
          (handleConnection gz directory rest
            (createMiddlewareChain gz directory req w).2).2)) ∧
    (wantsClose req = false → wantsClose req₂ = false →
      (handleConnection gz directory [req, req₂] w).1.length = 2) := by
  refine ⟨fun hc => ⟨?_, ?_⟩, fun hc => ?_, fun hc hc₂ => ?_⟩
  · simp [handleConnection, hc]
  · rw [hFind?_sendResponsePrepare _ (by decide) (by decide)]
    exact hFind?_hSet_self _ _ _
  · simp [handleConnection, hc]
  · simp [handleConnection, hc, hc₂]

/-- C1 amended: for every request through the full pipeline (middleware
chain plus `sendResponse`'s header fixup, with a compressor that never maps
a non-empty body to an empty one, as gzip does not), a response with a
non-empty body carries `Content-Length` equal to the byte length of the
body as written — the compressed length when compression was applied — and
a response with an empty body carries no `Content-Length` header at all. -/
theorem content_length_exact (gz : String → String) (directory : String)
    (req : Request) (w : World) (hgz : ∀ s, s ≠ "" → gz s ≠ "") :
    ((respond gz directory req w).1.body ≠ "" →
      hFind? ((respond gz directory req w).1).headers "Content-Length" =
        some (toString (goLen (respond gz directory req w).1.body))) ∧
    ((respond gz directory req w).1.body = "" →
      hFind? ((respond gz directory req w).1).headers "Content-Length" =
        none) :=
  prepare_content_length _ (chain_content_length gz directory req w hgz)

/-- C1 counterexample: the valid request `GET /` is answered 200 with an
empty body and its serialized response carries no `Content-Length` header
at all, contradicting the claim that every valid request's response
carries one. -/
theorem content_length_absent_on_empty_body :
    (respond (fun s => s) "" ⟨"GET", "/", "HTTP/1.1", [], none⟩
        emptyWorld).1 = mkResp StatusOK ∧
    hFind? ((respond (fun s => s) ""
        ⟨"GET", "/", "HTTP/1.1", [], none⟩ emptyWorld).1).headers
      "Content-Length" = none := by
  decide

/-- C4: for every request whose `accept-encoding` header has a
comma-separated token equal to "gzip" after lowering and trimming, and
whose response without that header would have a non-empty body, the final
response carries `Content-Encoding: gzip`, its body is the compression of
that body, and decompressing it gives back exactly the body the same
request would produce without the `accept-encoding` header.  The gzip
codec is abstracted as a pair `gz`/`ungz` with the round-trip property the
Go library provides. -/
theorem gzip_roundtrip (gz ungz : String → String) (directory : String)
    (req : Request) (w : World) (ae : String)
    (hrt : ∀ s, ungz (gz s) = s)
    (hae : hFind? req.headers "accept-encoding" = some ae)
    (htok : hasGzipToken ae = true)
    (hbody : (respond gz directory (dropAcceptEncoding req) w).1.body ≠ "") :
    hFind? ((respond gz directory req w).1).headers "Content-Encoding" =
      some "gzip" ∧
    (respond gz directory req w).1.body =
      gz ((respond gz directory (dropAcceptEncoding req) w).1.body) ∧
    ungz ((respond gz directory req w).1.body) =
      (respond gz directory (dropAcceptEncoding req) w).1.body := by
  have hrb : ∀ (r : Request) (w' : World),
      (respond gz directory r w').1.body =
        (createMiddlewareChain gz directory r w').1.body := by
    intro r w'
    exact sendResponsePrepare_body _
  by_cases hv : req.httpVersion = "HTTP/1.1"
  case neg =>
    exfalso
    apply hbody
    rw [hrb]
    simp [createMiddlewareChain, httpVersionMiddleware, dropAcceptEncoding, hv]
  case pos =>
  by_cases hmm : req.method ≠ "GET" ∧ req.method ≠ "POST"
  · exfalso
    apply hbody
    rw [hrb]
    simp [createMiddlewareChain, httpVersionMiddleware,
      methodValidationMiddleware, dropAcceptEncoding, hv, hmm, mkResp]
  · have hhv : ¬((dropAcceptEncoding req).httpVersion ≠ "HTTP/1.1") := by
      simp [dropAcceptEncoding, hv]
    have hhm : ¬((dropAcceptEncoding req).method ≠ "GET" ∧
        (dropAcceptEncoding req).method ≠ "POST") := by
      simpa [dropAcceptEncoding] using hmm
    have hchainD : createMiddlewareChain gz directory (dropAcceptEncoding req)
        w = routingMiddleware directory notFoundHandler req w := by
      have h3 : hFind? (dropAcceptEncoding req).headers "accept-encoding" =
          none := hFind?_hRemove_self _ _
      unfold createMiddlewareChain httpVersionMiddleware
        methodValidationMiddleware compressionMiddleware
      rw [if_neg hhv, if_neg hhm]
      simp only [h3]
      exact routing_drop_ae directory req w
    have hinb : (routingMiddleware directory notFoundHandler req w).1.body ≠
        "" := by
      have h := hbody
      rw [hrb, hchainD] at h
      exact h
    have hchain : createMiddlewareChain gz directory req w =
        ({ statusLine :=
            (routingMiddleware directory notFoundHandler req w).1.statusLine,
           headers := hSet (hSet
             (routingMiddleware directory notFoundHandler req w).1.headers
             "Content-Encoding" "gzip") "Content-Length"
             (toString (goLen
               (gz (routingMiddleware directory notFoundHandler req w).1.body))),
           body := gz (routingMiddleware directory notFoundHandler
             req w).1.body },
         (routingMiddleware directory notFoundHandler req w).2) := by
      have hv0 : ¬(req.httpVersion ≠ "HTTP/1.1") := fun hc => hc hv
      unfold createMiddlewareChain httpVersionMiddleware
        methodValidationMiddleware compressionMiddleware
      rw [if_neg hv0, if_neg hmm]
      simp only [hae]
      rw [if_pos ⟨hinb, htok⟩]
    have h1 : ("Content-Encoding" : String) ≠ "Content-Length" := by decide
    have h2 : ("Content-Encoding" : String) ≠ "Content-Type" := by decide
    refine ⟨?_, ?_, ?_⟩
    · have hp := hFind?_sendResponsePrepare
        (createMiddlewareChain gz directory req w).1 h1 h2
      refine Eq.trans hp ?_
      rw [hchain]
      show hFind? (hSet (hSet _ "Content-Encoding" "gzip") "Content-Length" _)
        "Content-Encoding" = some "gzip"
      rw [hFind?_hSet_ne _ h1]
      exact hFind?_hSet_self _ _ _
    · rw [hrb, hrb, hchain, hchainD]
    · rw [hrb, hrb, hchain, hchainD]
      exact hrt _

/-- Witness for C1 (amended): the identity compressor satisfies the
compressor hypothesis; the conclusion at `GET /echo/abc` follows by
applying the theorem. -/
theorem content_length_exact_witness :
    ((respond (fun s => s) "" ⟨"GET", "/echo/abc", "HTTP/1.1", [], none⟩
        emptyWorld).1.body ≠ "" →
      hFind? ((respond (fun s => s) ""
          ⟨"GET", "/echo/abc", "HTTP/1.1", [], none⟩ emptyWorld).1).headers
        "Content-Length" =
      some (toString (goLen (respond (fun s => s) ""
        ⟨"GET", "/echo/abc", "HTTP/1.1", [], none⟩ emptyWorld).1.body))) ∧
    ((respond (fun s => s) "" ⟨"GET", "/echo/abc", "HTTP/1.1", [], none⟩
        emptyWorld).1.body = "" →
      hFind? ((respond (fun s => s) ""
          ⟨"GET", "/echo/abc", "HTTP/1.1", [], none⟩ emptyWorld).1).headers
        "Content-Length" = none) :=
  content_length_exact (fun s => s) ""
    ⟨"GET", "/echo/abc", "HTTP/1.1", [], none⟩ emptyWorld (fun _ h => h)

/-- Witness for C4: a `GET /echo/hi` request advertising " GZip , br" with
the identity codec. -/
theorem gzip_roundtrip_witness :
    hFind? ((respond (fun s => s) ""
        ⟨"GET", "/echo/hi", "HTTP/1.1", [("accept-encoding", " GZip , br")],
          none⟩ emptyWorld).1).headers "Content-Encoding" = some "gzip" ∧
    (respond (fun s => s) ""
        ⟨"GET", "/echo/hi", "HTTP/1.1", [("accept-encoding", " GZip , br")],
          none⟩ emptyWorld).1.body =
      (fun s => s) ((respond (fun s => s) "" (dropAcceptEncoding
        ⟨"GET", "/echo/hi", "HTTP/1.1", [("accept-encoding", " GZip , br")],
          none⟩) emptyWorld).1.body) ∧
    (fun s => s) ((respond (fun s => s) ""
        ⟨"GET", "/echo/hi", "HTTP/1.1", [("accept-encoding", " GZip , br")],
          none⟩ emptyWorld).1.body) =
      (respond (fun s => s) "" (dropAcceptEncoding
        ⟨"GET", "/echo/hi", "HTTP/1.1", [("accept-encoding", " GZip , br")],
          none⟩) emptyWorld).1.body :=
  gzip_roundtrip (fun s => s) (fun s => s) ""
    ⟨"GET", "/echo/hi", "HTTP/1.1", [("accept-encoding", " GZip , br")], none⟩
    emptyWorld " GZip , br" (fun _ => rfl) (by decide) (by decide) (by decide)

/-- Witness for C6: a request carrying `connection: Close` followed by
another request; the loop writes one response with `Connection: close` and
stops. -/
theorem connection_close_semantics_witness :
    (handleConnection (fun s => s) ""
        (⟨"GET", "/", "HTTP/1.1", [("connection", "Close")], none⟩ ::
          [⟨"GET", "/user-agent", "HTTP/1.1", [], none⟩]) emptyWorld =
      ([sendResponsePrepare (addCloseHeader
          (createMiddlewareChain (fun s => s) ""
            ⟨"GET", "/", "HTTP/1.1", [("connection", "Close")], none⟩
            emptyWorld).1)],
        (createMiddlewareChain (fun s => s) ""
          ⟨"GET", "/", "HTTP/1.1", [("connection", "Close")], none⟩
          emptyWorld).2)) ∧
    hFind? (sendResponsePrepare (addCloseHeader
        (createMiddlewareChain (fun s => s) ""
          ⟨"GET", "/", "HTTP/1.1", [("connection", "Close")], none⟩
          emptyWorld).1)).headers "Connection" = some "close" :=
  (connection_close_semantics (fun s => s) ""
    ⟨"GET", "/", "HTTP/1.1", [("connection", "Close")], none⟩
    ⟨"GET", "/user-agent", "HTTP/1.1", [], none⟩
    [⟨"GET", "/user-agent", "HTTP/1.1", [], none⟩] emptyWorld).1 (by decide)

end HttpServer
